import Mathlib

/-!
Verification of the particle-simulation kernel: the Particle entity
(src/particle/Particle.cpp), the ParticleSystem container
(src/particle/ParticleSystem.h and its .cpp), and the PhysicsEngine
(src/physics/PhysicsEngine.h and its .cpp), embedded shallowly over ℝ.
2D vectors (glm::vec2) are modelled as pairs of reals; float arithmetic is
modelled as exact real arithmetic.
-/

noncomputable section
open Classical

/-- Model of glm::vec2: a pair of real coordinates. -/
@[ext]
structure Vec2 where
  x : ℝ
  y : ℝ

/-- Componentwise vector addition. -/
def vadd (a b : Vec2) : Vec2 := ⟨a.x + b.x, a.y + b.y⟩

/-- Componentwise vector subtraction. -/
def vsub (a b : Vec2) : Vec2 := ⟨a.x - b.x, a.y - b.y⟩

/-- Vector times scalar on the right (glm vec2 * float). -/
def vscale (v : Vec2) (c : ℝ) : Vec2 := ⟨v.x * c, v.y * c⟩

/-- Scalar times vector on the left (glm float * vec2). -/
def vsmul (c : ℝ) (v : Vec2) : Vec2 := ⟨c * v.x, c * v.y⟩

/-- Vector divided by scalar (glm vec2 / float). -/
def vdiv (v : Vec2) (c : ℝ) : Vec2 := ⟨v.x / c, v.y / c⟩

/-- Vector negation. -/
def vneg (v : Vec2) : Vec2 := ⟨-v.x, -v.y⟩

/-- Dot product of two vectors (glm::dot). -/
def dot (a b : Vec2) : ℝ := a.x * b.x + a.y * b.y

/-- The zero vector, glm::vec2(0.0f, 0.0f). -/
def vzero : Vec2 := ⟨0, 0⟩

/-- Euclidean length of a vector (glm::length). -/
def vlen (v : Vec2) : ℝ := Real.sqrt (dot v v)

/-- Unit vector in the direction of v (glm::normalize), v / length(v). -/
def vnormalize (v : Vec2) : Vec2 := vdiv v (vlen v)

/-- Model of the Particle class: position, velocity, accumulated
acceleration, mass and radius (src/particle/Particle.h). -/
@[ext]
structure Particle where
  position : Vec2
  velocity : Vec2
  acceleration : Vec2
  mass : ℝ
  radius : ℝ

instance : Inhabited Particle := ⟨⟨vzero, vzero, vzero, 1, 5⟩⟩

/-- The Particle constructor (Particle.cpp): stores the given position and
mass, zeroes velocity and acceleration, and sets the default radius 5.0f.
The source performs no validation of the mass argument. -/
def particleNew (pos : Vec2) (m : ℝ) : Particle :=
  { position := pos, velocity := vzero, acceleration := vzero, mass := m, radius := 5 }

/-- Particle::applyForce: acceleration += force / mass. -/
def Particle.applyForce (p : Particle) (force : Vec2) : Particle :=
  { p with acceleration := vadd p.acceleration (vdiv force p.mass) }

/-- Particle::update: velocity += acceleration * dt, then
position += velocity * dt (the already-updated velocity), then the
acceleration is reset to zero. -/
def Particle.update (p : Particle) (dt : ℝ) : Particle :=
  let v := vadd p.velocity (vscale p.acceleration dt)
  { p with velocity := v
           position := vadd p.position (vscale v dt)
           acceleration := vzero }

/-- ParticleSystem::addParticle: append at the end of the sequence. -/
def addParticle (ps : List Particle) (p : Particle) : List Particle := ps ++ [p]

/-- ParticleSystem::update: call update(dt) on every particle in order. -/
def systemUpdate (ps : List Particle) (dt : ℝ) : List Particle :=
  ps.map (fun p => p.update dt)

/-- The PhysicsEngine's configuration members: m_gravity, m_airResistance,
m_collisionDamping. -/
structure EngineConfig where
  gravity : Vec2
  airResistance : ℝ
  collisionDamping : ℝ

/-- The PhysicsEngine constructor defaults: gravity (0, -9.81),
air resistance 0.01, collision damping 0.8. -/
def defaultEngine : EngineConfig := ⟨⟨0, -(981 / 100)⟩, 1 / 100, 4 / 5⟩

/-- PhysicsEngine::applyGravity: every particle gets force gravity * mass. -/
def applyGravity (g : Vec2) (ps : List Particle) : List Particle :=
  ps.map (fun p => p.applyForce (vscale g p.mass))

/-- The loop body of PhysicsEngine::applyAirResistance for one particle:
if speed > 0, apply the drag force dragDirection * resistance * speed *
speed where dragDirection is the unit vector opposite the velocity. -/
def airOne (resistance : ℝ) (p : Particle) : Particle :=
  let speed := vlen p.velocity
  if speed > 0 then
    let dragDirection := vneg (vnormalize p.velocity)
    let dragForce := vscale (vscale (vscale dragDirection resistance) speed) speed
    p.applyForce dragForce
  else p

/-- PhysicsEngine::applyAirResistance: the drag rule on every particle. -/
def applyAirResistance (resistance : ℝ) (ps : List Particle) : List Particle :=
  ps.map (airOne resistance)

/-- PhysicsEngine::applyForceToParticle: delegate to Particle::applyForce. -/
def applyForceToParticle (p : Particle) (force : Vec2) : Particle :=
  p.applyForce force

/-- PhysicsEngine::applyGlobalForce: apply the same force to every particle. -/
def applyGlobalForce (force : Vec2) (ps : List Particle) : List Particle :=
  ps.map (fun p => p.applyForce force)

/-- PhysicsEngine::calculateDistance: length of p2.position - p1.position. -/
def calculateDistance (p1 p2 : Particle) : ℝ :=
  vlen (vsub p2.position p1.position)

/-- PhysicsEngine::checkCollision: distance strictly below the radius sum. -/
def checkCollision (p1 p2 : Particle) : Prop :=
  calculateDistance p1 p2 < p1.radius + p2.radius

/-- PhysicsEngine::resolveCollision: early-out when the centers coincide;
separate the two disks by half the overlap each along the collision normal;
then, unless the pair is separating, apply equal-and-opposite impulses
scaled by the inverse masses, with the damping factor as restitution. -/
def resolveCollision (damping : ℝ) (p1 p2 : Particle) : Particle × Particle :=
  let collisionNormal0 := vsub p2.position p1.position
  let distance := vlen collisionNormal0
  if distance = 0 then (p1, p2) else
    let n := vnormalize collisionNormal0
    let overlap := (p1.radius + p2.radius) - distance
    let separation := overlap * (1 / 2)
    let q1 := { p1 with position := vsub p1.position (vscale n separation) }
    let q2 := { p2 with position := vadd p2.position (vscale n separation) }
    let relativeVelocity := vsub q2.velocity q1.velocity
    let velAlongNormal := dot relativeVelocity n
    if velAlongNormal > 0 then (q1, q2) else
      let restitution := damping
      let j := (-(1 + restitution) * velAlongNormal) / (1 / q1.mass + 1 / q2.mass)
      let impulse := vsmul j n
      ({ q1 with velocity := vsub q1.velocity (vdiv impulse q1.mass) },
       { q2 with velocity := vadd q2.velocity (vdiv impulse q2.mass) })

/-- Index pairs (i, j) with i < j < n, in the order of the two nested loops
of PhysicsEngine::handleCollisions. -/
def pairIndices (n : ℕ) : List (ℕ × ℕ) :=
  (List.range n).flatMap (fun i => ((List.range n).drop (i + 1)).map (fun j => (i, j)))

/-- One iteration of the inner collision loop: read particles i and j from
the current sequence, and when they collide write back the resolved pair. -/
def resolveAt (damping : ℝ) (ps : List Particle) (ij : ℕ × ℕ) : List Particle :=
  let p1 := ps.getD ij.1 default
  let p2 := ps.getD ij.2 default
  if checkCollision p1 p2 then
    let r := resolveCollision damping p1 p2
    (ps.set ij.1 r.1).set ij.2 r.2
  else ps

/-- PhysicsEngine::handleCollisions: fold the pairwise resolution over all
index pairs i < j in loop order, mutating the sequence in place. -/
def handleCollisions (damping : ℝ) (ps : List Particle) : List Particle :=
  (pairIndices ps.length).foldl (resolveAt damping) ps

/-- PhysicsEngine::integrateParticles: apply gravity, then air resistance,
then handle collisions, then delegate to ParticleSystem::update. -/
def integrateParticles (cfg : EngineConfig) (ps : List Particle) (dt : ℝ) : List Particle :=
  systemUpdate
    (handleCollisions cfg.collisionDamping
      (applyAirResistance cfg.airResistance (applyGravity cfg.gravity ps))) dt

/-- One particle's boundary handling inside
PhysicsEngine::applyBoundaryConstraints: four sequential conditional
clamps (x against min, x against max, y against min, y against max), each
snapping the position so the disk edge touches the wall and replacing that
axis's velocity with -velocity * m_collisionDamping. -/
def boundaryOne (damping : ℝ) (mn mx : Vec2) (p0 : Particle) : Particle :=
  let p1 := if p0.position.x - p0.radius < mn.x then
      { p0 with position := ⟨mn.x + p0.radius, p0.position.y⟩
                velocity := ⟨-p0.velocity.x * damping, p0.velocity.y⟩ } else p0
  let p2 := if p1.position.x + p1.radius > mx.x then
      { p1 with position := ⟨mx.x - p1.radius, p1.position.y⟩
                velocity := ⟨-p1.velocity.x * damping, p1.velocity.y⟩ } else p1
  let p3 := if p2.position.y - p2.radius < mn.y then
      { p2 with position := ⟨p2.position.x, mn.y + p2.radius⟩
                velocity := ⟨p2.velocity.x, -p2.velocity.y * damping⟩ } else p2
  let p4 := if p3.position.y + p3.radius > mx.y then
      { p3 with position := ⟨p3.position.x, mx.y - p3.radius⟩
                velocity := ⟨p3.velocity.x, -p3.velocity.y * damping⟩ } else p3
  p4

/-- PhysicsEngine::applyBoundaryConstraints: boundary-handle every particle. -/
def applyBoundaryConstraints (cfg : EngineConfig) (mn mx : Vec2) (ps : List Particle) :
    List Particle :=
  ps.map (boundaryOne cfg.collisionDamping mn mx)

/-- The application's per-frame physics update
(ParticleSimulationApp::update in src/main.cpp): boundary constraints
first, then the engine's step entry point integrateParticles. -/
def appUpdate (cfg : EngineConfig) (mn mx : Vec2) (ps : List Particle) (dt : ℝ) :
    List Particle :=
  integrateParticles cfg (applyBoundaryConstraints cfg mn mx ps) dt

/-- Modelled from the spec: the four-phase step of section 4.3 of the spec
(force application, then boundary confinement, then pairwise collision
resolution, then integration commit), which the spec attributes to the
engine's single-step entry point. Stated here for comparison with the
source's integrateParticles, which has no boundary phase. -/
def specStep (cfg : EngineConfig) (mn mx : Vec2) (ps : List Particle) (dt : ℝ) :
    List Particle :=
  systemUpdate
    (handleCollisions cfg.collisionDamping
      (applyBoundaryConstraints cfg mn mx
        (applyAirResistance cfg.airResistance (applyGravity cfg.gravity ps)))) dt

/-- Modelled from the spec: the per-axis boundary confinement rule of the
spec, on one axis's (position, velocity) pair: clamp against the minimum
wall, then against the maximum wall, negating and damping the velocity on
each clamp. Stated for comparison with the source's boundaryOne. -/
def specAxisConfinement (damping mn mx r : ℝ) (s0 : ℝ × ℝ) : ℝ × ℝ :=
  let s1 := if s0.1 - r < mn then (mn + r, -s0.2 * damping) else s0
  let s2 := if s1.1 + r > mx then (mx - r, -s1.2 * damping) else s1
  s2

/-- The mass and radius fields of one particle. -/
def mrP (p : Particle) : ℝ × ℝ := (p.mass, p.radius)

/-- The mass and radius fields of every particle in a sequence. -/
def massRadii (ps : List Particle) : List (ℝ × ℝ) :=
  ps.map mrP

/-- The collision normal local variable of PhysicsEngine::resolveCollision
after normalization. -/
def collisionNormal (p1 p2 : Particle) : Vec2 :=
  vnormalize (vsub p2.position p1.position)

/-- The velAlongNormal local variable of PhysicsEngine::resolveCollision. -/
def velAlong (p1 p2 : Particle) : ℝ :=
  dot (vsub p2.velocity p1.velocity) (collisionNormal p1 p2)

/-- The impulse scalar j of PhysicsEngine::resolveCollision. -/
def impulseJ (e : ℝ) (p1 p2 : Particle) : ℝ :=
  (-(1 + e) * velAlong p1 p2) / (1 / p1.mass + 1 / p2.mass)

theorem dot_self_nonneg (v : Vec2) : 0 ≤ dot v v := by
  unfold dot; nlinarith [mul_self_nonneg v.x, mul_self_nonneg v.y]

theorem vlen_nonneg (v : Vec2) : 0 ≤ vlen v := Real.sqrt_nonneg _

theorem vlen_mul_self (v : Vec2) : vlen v * vlen v = dot v v :=
  Real.mul_self_sqrt (dot_self_nonneg v)

theorem vlen_eval (v : Vec2) (c : ℝ) (hc : 0 ≤ c) (h : dot v v = c * c) : vlen v = c := by
  unfold vlen; rw [h, Real.sqrt_mul_self hc]

theorem vlen_eq_zero_iff (v : Vec2) : vlen v = 0 ↔ v = vzero := by
  constructor
  · intro h
    have h2 : dot v v = 0 := by rw [← vlen_mul_self v, h]; ring
    unfold dot at h2
    ext
    · show v.x = (0 : ℝ); nlinarith [mul_self_nonneg v.x, mul_self_nonneg v.y]
    · show v.y = (0 : ℝ); nlinarith [mul_self_nonneg v.x, mul_self_nonneg v.y]
  · intro h
    rw [h]
    show Real.sqrt (dot vzero vzero) = 0
    simp [dot, vzero]

theorem le_vlen (v : Vec2) (R : ℝ) (hR : 0 ≤ R) (h : R * R ≤ dot v v) : R ≤ vlen v := by
  have h1 : Real.sqrt (R * R) ≤ Real.sqrt (dot v v) := Real.sqrt_le_sqrt h
  rwa [Real.sqrt_mul_self hR] at h1

theorem getD_map_mrP :
    ∀ (l : List Particle) (i : ℕ) (d : Particle),
      (l.map mrP).getD i (mrP d) = mrP (l.getD i d) := by
  intro l
  induction l with
  | nil => intro i d; simp [List.getD]
  | cons a t ih =>
    intro i d
    cases i with
    | zero => simp
    | succ n =>
      rw [List.map_cons, List.getD_cons_succ, List.getD_cons_succ]
      exact ih n d

theorem set_getD_self {α : Type} :
    ∀ (l : List α) (i : ℕ) (d : α), l.set i (l.getD i d) = l := by
  intro l
  induction l with
  | nil => intro i d; simp
  | cons a t ih =>
    intro i d
    cases i with
    | zero => simp
    | succ n => simpa using ih n d

theorem resolveCollision_frame (e : ℝ) (p1 p2 : Particle) :
    (resolveCollision e p1 p2).1.mass = p1.mass ∧
    (resolveCollision e p1 p2).2.mass = p2.mass ∧
    (resolveCollision e p1 p2).1.radius = p1.radius ∧
    (resolveCollision e p1 p2).2.radius = p2.radius ∧
    (resolveCollision e p1 p2).1.acceleration = p1.acceleration ∧
    (resolveCollision e p1 p2).2.acceleration = p2.acceleration := by
  unfold resolveCollision
  dsimp only
  split_ifs <;> simp

theorem resolveAt_massRadii (e : ℝ) (ps : List Particle) (ij : ℕ × ℕ) :
    massRadii (resolveAt e ps ij) = massRadii ps := by
  unfold resolveAt
  dsimp only
  split_ifs with h
  · unfold massRadii
    rw [List.map_set, List.map_set]
    have h1 := resolveCollision_frame e (ps.getD ij.1 default) (ps.getD ij.2 default)
    rw [show mrP (resolveCollision e (ps.getD ij.1 default) (ps.getD ij.2 default)).1
          = mrP (ps.getD ij.1 default) by unfold mrP; rw [h1.1, h1.2.2.1]]
    rw [show mrP (resolveCollision e (ps.getD ij.1 default) (ps.getD ij.2 default)).2
          = mrP (ps.getD ij.2 default) by unfold mrP; rw [h1.2.1, h1.2.2.2.1]]
    rw [← getD_map_mrP ps ij.1 default]
    rw [← getD_map_mrP ps ij.2 default]
    rw [set_getD_self, set_getD_self]
  · rfl

theorem foldl_resolveAt_massRadii (e : ℝ) :
    ∀ (l : List (ℕ × ℕ)) (ps : List Particle),
      massRadii (l.foldl (resolveAt e) ps) = massRadii ps := by
  intro l
  induction l with
  | nil => intro ps; rfl
  | cons a t ih =>
    intro ps
    show massRadii (t.foldl (resolveAt e) (resolveAt e ps a)) = massRadii ps
    rw [ih (resolveAt e ps a), resolveAt_massRadii]

theorem handleCollisions_massRadii (e : ℝ) (ps : List Particle) :
    massRadii (handleCollisions e ps) = massRadii ps :=
  foldl_resolveAt_massRadii e (pairIndices ps.length) ps

theorem massRadii_map (f : Particle → Particle)
    (h : ∀ p, (f p).mass = p.mass ∧ (f p).radius = p.radius) :
    ∀ ps : List Particle, massRadii (ps.map f) = massRadii ps := by
  intro ps
  induction ps with
  | nil => rfl
  | cons a t ih =>
    unfold massRadii at ih ⊢
    simp only [List.map_cons, List.map_map] at ih ⊢
    rw [show mrP (f a) = mrP a by unfold mrP; rw [(h a).1, (h a).2]]
    exact congrArg _ ih

theorem boundaryOne_frame (damping : ℝ) (mn mx : Vec2) (p : Particle) :
    (boundaryOne damping mn mx p).mass = p.mass ∧
    (boundaryOne damping mn mx p).radius = p.radius ∧
    (boundaryOne damping mn mx p).acceleration = p.acceleration := by
  unfold boundaryOne
  dsimp only
  split_ifs <;> simp

theorem massRadii_length (ps : List Particle) : (massRadii ps).length = ps.length :=
  List.length_map _ _

theorem pairIndices_one : pairIndices 1 = [] := rfl

theorem pairIndices_two : pairIndices 2 = [(0, 1)] := rfl

theorem handleCollisions_singleton (e : ℝ) (p : Particle) :
    handleCollisions e [p] = [p] := rfl

theorem handleCollisions_pair (e : ℝ) (a b : Particle) :
    handleCollisions e [a, b]
      = if checkCollision a b then
          [(resolveCollision e a b).1, (resolveCollision e a b).2]
        else [a, b] := by
  show resolveAt e [a, b] (0, 1) = _
  unfold resolveAt
  dsimp only
  have e0 : [a, b].getD 0 default = a := rfl
  have e1 : [a, b].getD 1 default = b := rfl
  rw [e0, e1]
  split_ifs with h
  · rfl
  · rfl

theorem vlen_vzero : vlen vzero = 0 := by
  unfold vlen dot vzero
  simp

theorem vsub_eq_vzero_iff (a b : Vec2) : vsub a b = vzero ↔ a = b := by
  unfold vsub vzero
  simp [Vec2.ext_iff, sub_eq_zero]

theorem dot_vscale_left (u w : Vec2) (c : ℝ) : dot (vscale u c) w = c * dot u w := by
  unfold dot vscale; dsimp only; ring

theorem dot_vscale_right (u w : Vec2) (c : ℝ) : dot u (vscale w c) = c * dot u w := by
  unfold dot vscale; dsimp only; ring

theorem dot_vdiv_right (u v : Vec2) (c : ℝ) : dot u (vdiv v c) = dot u v / c := by
  unfold dot vdiv; dsimp only; ring

theorem dot_vsub_right (u v w : Vec2) : dot u (vsub v w) = dot u v - dot u w := by
  unfold dot vsub; dsimp only; ring

theorem dot_vadd_right (u v w : Vec2) : dot u (vadd v w) = dot u v + dot u w := by
  unfold dot vadd; dsimp only; ring

theorem dot_vsmul_right (u : Vec2) (c : ℝ) (v : Vec2) : dot u (vsmul c v) = c * dot u v := by
  unfold dot vsmul; dsimp only; ring

theorem dot_comm (u v : Vec2) : dot u v = dot v u := by
  unfold dot; ring

theorem resolve_pos1 (e : ℝ) (p1 p2 : Particle)
    (hd : vlen (vsub p2.position p1.position) ≠ 0) :
    (resolveCollision e p1 p2).1.position
      = vsub p1.position (vscale (collisionNormal p1 p2)
          (((p1.radius + p2.radius) - vlen (vsub p2.position p1.position)) * (1 / 2))) := by
  unfold resolveCollision collisionNormal
  dsimp only
  rw [if_neg hd]
  split_ifs <;> rfl

theorem resolve_pos2 (e : ℝ) (p1 p2 : Particle)
    (hd : vlen (vsub p2.position p1.position) ≠ 0) :
    (resolveCollision e p1 p2).2.position
      = vadd p2.position (vscale (collisionNormal p1 p2)
          (((p1.radius + p2.radius) - vlen (vsub p2.position p1.position)) * (1 / 2))) := by
  unfold resolveCollision collisionNormal
  dsimp only
  rw [if_neg hd]
  split_ifs <;> rfl

theorem resolve_vel_noimp (e : ℝ) (p1 p2 : Particle)
    (hd : vlen (vsub p2.position p1.position) ≠ 0)
    (hgt : velAlong p1 p2 > 0) :
    (resolveCollision e p1 p2).1.velocity = p1.velocity ∧
    (resolveCollision e p1 p2).2.velocity = p2.velocity := by
  have hgt' : dot (vsub p2.velocity p1.velocity) (vnormalize (vsub p2.position p1.position)) > 0 := hgt
  unfold resolveCollision
  dsimp only
  rw [if_neg hd, if_pos hgt']
  exact ⟨rfl, rfl⟩

theorem resolve_vel_imp (e : ℝ) (p1 p2 : Particle)
    (hd : vlen (vsub p2.position p1.position) ≠ 0)
    (hle : ¬ velAlong p1 p2 > 0) :
    (resolveCollision e p1 p2).1.velocity
      = vsub p1.velocity (vdiv (vsmul (impulseJ e p1 p2) (collisionNormal p1 p2)) p1.mass) ∧
    (resolveCollision e p1 p2).2.velocity
      = vadd p2.velocity (vdiv (vsmul (impulseJ e p1 p2) (collisionNormal p1 p2)) p2.mass) := by
  have hle' : ¬ dot (vsub p2.velocity p1.velocity) (vnormalize (vsub p2.position p1.position)) > 0 := hle
  unfold resolveCollision
  dsimp only
  rw [if_neg hd, if_neg hle']
  exact ⟨rfl, rfl⟩

theorem dot_normal_self (p1 p2 : Particle)
    (hd : vlen (vsub p2.position p1.position) ≠ 0) :
    dot (vsub p2.position p1.position) (collisionNormal p1 p2)
      = vlen (vsub p2.position p1.position) := by
  unfold collisionNormal vnormalize
  rw [dot_vdiv_right, ← vlen_mul_self]
  field_simp

theorem velAlong_eq (p1 p2 : Particle) :
    velAlong p1 p2
      = dot (vsub p2.velocity p1.velocity) (vsub p2.position p1.position)
          / vlen (vsub p2.position p1.position) := by
  unfold velAlong collisionNormal vnormalize
  rw [dot_vdiv_right]

theorem resolve_sep_vec (e : ℝ) (p1 p2 : Particle)
    (hd : vlen (vsub p2.position p1.position) ≠ 0) :
    vsub (resolveCollision e p1 p2).2.position (resolveCollision e p1 p2).1.position
      = vscale (vsub p2.position p1.position)
          ((p1.radius + p2.radius) / vlen (vsub p2.position p1.position)) := by
  rw [resolve_pos1 e p1 p2 hd, resolve_pos2 e p1 p2 hd]
  have hd' : vlen (Vec2.mk (p2.position.x - p1.position.x) (p2.position.y - p1.position.y)) ≠ 0 := hd
  unfold collisionNormal vnormalize vsub vadd vscale vdiv
  dsimp only
  ext
  · dsimp only
    field_simp
    ring
  · dsimp only
    field_simp
    ring

theorem resolve_sep_sq (e : ℝ) (p1 p2 : Particle)
    (hd : vlen (vsub p2.position p1.position) ≠ 0) :
    dot (vsub (resolveCollision e p1 p2).2.position (resolveCollision e p1 p2).1.position)
        (vsub (resolveCollision e p1 p2).2.position (resolveCollision e p1 p2).1.position)
      = (p1.radius + p2.radius) * (p1.radius + p2.radius) := by
  rw [resolve_sep_vec e p1 p2 hd, dot_vscale_left, dot_vscale_right, ← vlen_mul_self]
  field_simp
  ring

theorem resolve_relvel_dot (e : ℝ) (p1 p2 : Particle)
    (hd : vlen (vsub p2.position p1.position) ≠ 0)
    (he : 0 ≤ e) (hm1 : 0 < p1.mass) (hm2 : 0 < p2.mass) :
    0 ≤ dot (vsub p2.position p1.position)
          (vsub (resolveCollision e p1 p2).2.velocity (resolveCollision e p1 p2).1.velocity) := by
  have hd0 : 0 < vlen (vsub p2.position p1.position) :=
    (vlen_nonneg _).lt_of_ne (Ne.symm hd)
  by_cases hgt : velAlong p1 p2 > 0
  · obtain ⟨h1, h2⟩ := resolve_vel_noimp e p1 p2 hd hgt
    rw [h1, h2]
    rw [velAlong_eq] at hgt
    have h3 : 0 < dot (vsub p2.velocity p1.velocity) (vsub p2.position p1.position) := by
      have h4 := mul_pos hgt hd0
      rwa [div_mul_cancel₀ _ hd] at h4
    rw [dot_comm]
    exact le_of_lt h3
  · obtain ⟨h1, h2⟩ := resolve_vel_imp e p1 p2 hd hgt
    rw [h1, h2, dot_vsub_right, dot_vadd_right, dot_vsub_right, dot_vdiv_right,
      dot_vdiv_right, dot_vsmul_right, dot_normal_self p1 p2 hd]
    have hva : velAlong p1 p2 ≤ 0 := not_lt.mp hgt
    have hS : dot (vsub p2.position p1.position) p2.velocity
        - dot (vsub p2.position p1.position) p1.velocity
        = velAlong p1 p2 * vlen (vsub p2.position p1.position) := by
      rw [velAlong_eq, div_mul_cancel₀ _ hd]
      unfold dot vsub
      dsimp only
      ring
    have hsum : (0 : ℝ) < 1 / p1.mass + 1 / p2.mass := by positivity
    have hJ : impulseJ e p1 p2 * (1 / p1.mass + 1 / p2.mass)
        = -(1 + e) * velAlong p1 p2 := by
      unfold impulseJ
      rw [div_mul_cancel₀ _ (ne_of_gt hsum)]
    have hE : dot (vsub p2.position p1.position) p2.velocity
          + impulseJ e p1 p2 * vlen (vsub p2.position p1.position) / p2.mass
          - (dot (vsub p2.position p1.position) p1.velocity
             - impulseJ e p1 p2 * vlen (vsub p2.position p1.position) / p1.mass)
        = -e * velAlong p1 p2 * vlen (vsub p2.position p1.position) := by
      calc dot (vsub p2.position p1.position) p2.velocity
            + impulseJ e p1 p2 * vlen (vsub p2.position p1.position) / p2.mass
            - (dot (vsub p2.position p1.position) p1.velocity
               - impulseJ e p1 p2 * vlen (vsub p2.position p1.position) / p1.mass)
          = (dot (vsub p2.position p1.position) p2.velocity
              - dot (vsub p2.position p1.position) p1.velocity)
            + (impulseJ e p1 p2 * (1 / p1.mass + 1 / p2.mass))
              * vlen (vsub p2.position p1.position) := by ring
        _ = velAlong p1 p2 * vlen (vsub p2.position p1.position)
            + (-(1 + e) * velAlong p1 p2) * vlen (vsub p2.position p1.position) := by
            rw [hS, hJ]
        _ = -e * velAlong p1 p2 * vlen (vsub p2.position p1.position) := by ring
    rw [hE]
    have h5 : 0 ≤ e * (-velAlong p1 p2) * vlen (vsub p2.position p1.position) := by
      apply mul_nonneg
      · exact mul_nonneg he (neg_nonneg.mpr hva)
      · exact le_of_lt hd0
    nlinarith [h5]

theorem dot_expand (A B : Vec2) :
    dot (vadd A B) (vadd A B) = dot A A + 2 * dot A B + dot B B := by
  unfold dot vadd
  dsimp only
  ring

theorem update_sub (u1 u2 : Particle) (dt : ℝ)
    (ha : u1.acceleration = u2.acceleration) :
    vsub (u2.update dt).position (u1.update dt).position
      = vadd (vsub u2.position u1.position)
             (vscale (vsub u2.velocity u1.velocity) dt) := by
  unfold Particle.update
  dsimp only
  unfold vadd vsub vscale
  ext
  · dsimp only
    rw [ha]
    ring
  · dsimp only
    rw [ha]
    ring

theorem applyGravity_particle (g : Vec2) (p : Particle) (hm : p.mass ≠ 0) :
    p.applyForce (vscale g p.mass)
      = { p with acceleration := vadd p.acceleration g } := by
  unfold Particle.applyForce
  have h : vdiv (vscale g p.mass) p.mass = g := by
    unfold vdiv vscale
    ext
    · dsimp only
      field_simp
    · dsimp only
      field_simp
  rw [h]

theorem applyForce_zero_vec (p : Particle) (v : Vec2)
    (hx : v.x = 0) (hy : v.y = 0) : p.applyForce v = p := by
  unfold Particle.applyForce
  have h : vadd p.acceleration (vdiv v p.mass) = p.acceleration := by
    unfold vadd vdiv
    ext
    · dsimp only
      rw [hx]
      simp
    · dsimp only
      rw [hy]
      simp
  rw [h]

theorem applyAirResistance_zero (ps : List Particle) :
    applyAirResistance 0 ps = ps := by
  unfold applyAirResistance airOne
  induction ps with
  | nil => rfl
  | cons a t ih =>
    rw [List.map_cons, ih]
    congr 1
    dsimp only
    split_ifs with h
    · apply applyForce_zero_vec
      · unfold vscale vneg vnormalize vdiv
        dsimp only
        ring
      · unfold vscale vneg vnormalize vdiv
        dsimp only
        ring
    · rfl

theorem applyGravity_zero (ps : List Particle) :
    applyGravity vzero ps = ps := by
  unfold applyGravity
  induction ps with
  | nil => rfl
  | cons a t ih =>
    rw [List.map_cons, ih]
    congr 1
    apply applyForce_zero_vec
    · unfold vscale vzero
      dsimp only
      ring
    · unfold vscale vzero
      dsimp only
      ring

theorem step_two_eval (cfg : EngineConfig) (p1 p2 : Particle) (dt : ℝ)
    (har : cfg.airResistance = 0)
    (hm1 : p1.mass ≠ 0) (hm2 : p2.mass ≠ 0)
    (hcol : checkCollision p1 p2) :
    integrateParticles cfg [p1, p2] dt
      = [Particle.update (resolveCollision cfg.collisionDamping
            { p1 with acceleration := vadd p1.acceleration cfg.gravity }
            { p2 with acceleration := vadd p2.acceleration cfg.gravity }).1 dt,
         Particle.update (resolveCollision cfg.collisionDamping
            { p1 with acceleration := vadd p1.acceleration cfg.gravity }
            { p2 with acceleration := vadd p2.acceleration cfg.gravity }).2 dt] := by
  unfold integrateParticles
  rw [har, applyAirResistance_zero]
  unfold applyGravity
  rw [List.map_cons, List.map_cons, List.map_nil]
  rw [applyGravity_particle cfg.gravity p1 hm1, applyGravity_particle cfg.gravity p2 hm2]
  rw [handleCollisions_pair]
  have hcolg : checkCollision { p1 with acceleration := vadd p1.acceleration cfg.gravity }
      { p2 with acceleration := vadd p2.acceleration cfg.gravity } := hcol
  rw [if_pos hcolg]
  unfold systemUpdate
  rw [List.map_cons, List.map_cons, List.map_nil]

/-- Claim C2, amended: for a collection of exactly two particles that are
colliding when the engine's step runs, with distinct centers, positive
masses, equal accumulated accelerations, air-resistance coefficient 0,
damping factor at least 0 and deltaTime at least 0, after the step the
distance between centers is at least the sum of the radii. -/
theorem C2_amended_two_particle_separation (cfg : EngineConfig) (p1 p2 : Particle)
    (dt : ℝ)
    (har : cfg.airResistance = 0) (he : 0 ≤ cfg.collisionDamping) (hdt : 0 ≤ dt)
    (hm1 : 0 < p1.mass) (hm2 : 0 < p2.mass)
    (hacc : p1.acceleration = p2.acceleration)
    (hcol : checkCollision p1 p2)
    (hpos : p1.position ≠ p2.position) :
    p1.radius + p2.radius
      ≤ calculateDistance ((integrateParticles cfg [p1, p2] dt).getD 0 default)
          ((integrateParticles cfg [p1, p2] dt).getD 1 default) := by
  have hΔ : vsub p2.position p1.position ≠ vzero := by
    intro hcon
    exact hpos ((vsub_eq_vzero_iff p2.position p1.position).mp hcon).symm
  have hd : vlen (vsub p2.position p1.position) ≠ 0 := by
    intro h0
    exact hΔ ((vlen_eq_zero_iff _).mp h0)
  have hd0 : 0 < vlen (vsub p2.position p1.position) :=
    (vlen_nonneg _).lt_of_ne (Ne.symm hd)
  have hcol' : vlen (vsub p2.position p1.position) < p1.radius + p2.radius := hcol
  have hR : 0 < p1.radius + p2.radius := lt_of_le_of_lt (vlen_nonneg _) hcol'
  rw [step_two_eval cfg p1 p2 dt har (ne_of_gt hm1) (ne_of_gt hm2) hcol]
  simp only [List.getD_cons_zero, List.getD_cons_succ]
  set g1 : Particle := { p1 with acceleration := vadd p1.acceleration cfg.gravity } with hg1
  set g2 : Particle := { p2 with acceleration := vadd p2.acceleration cfg.gravity } with hg2
  have hdg : vlen (vsub g2.position g1.position) ≠ 0 := hd
  have haccg : g1.acceleration = g2.acceleration := by
    show vadd p1.acceleration cfg.gravity = vadd p2.acceleration cfg.gravity
    rw [hacc]
  have hframe := resolveCollision_frame cfg.collisionDamping g1 g2
  have haccu : (resolveCollision cfg.collisionDamping g1 g2).1.acceleration
      = (resolveCollision cfg.collisionDamping g1 g2).2.acceleration := by
    rw [hframe.2.2.2.2.1, hframe.2.2.2.2.2, haccg]
  unfold calculateDistance
  rw [update_sub _ _ dt haccu]
  apply le_vlen _ _ (le_of_lt hR)
  rw [dot_expand]
  rw [resolve_sep_sq cfg.collisionDamping g1 g2 hdg]
  have hrad1 : g1.radius = p1.radius := rfl
  have hrad2 : g2.radius = p2.radius := rfl
  have hposs : vsub g2.position g1.position = vsub p2.position p1.position := rfl
  rw [hrad1, hrad2]
  rw [dot_vscale_right]
  rw [resolve_sep_vec cfg.collisionDamping g1 g2 hdg]
  rw [dot_vscale_left]
  rw [hposs, hrad1, hrad2]
  have hrel := resolve_relvel_dot cfg.collisionDamping g1 g2 hdg he hm1 hm2
  rw [hposs] at hrel
  have t1 : 0 ≤ dt * ((p1.radius + p2.radius) / vlen (vsub p2.position p1.position)
      * dot (vsub p2.position p1.position)
          (vsub (resolveCollision cfg.collisionDamping g1 g2).2.velocity
                (resolveCollision cfg.collisionDamping g1 g2).1.velocity)) :=
    mul_nonneg hdt (mul_nonneg (div_nonneg (le_of_lt hR) (le_of_lt hd0)) hrel)
  have t2 := dot_self_nonneg
      (vscale (vsub (resolveCollision cfg.collisionDamping g1 g2).2.velocity
                    (resolveCollision cfg.collisionDamping g1 g2).1.velocity) dt)
  linarith

theorem normal_dot_one (p1 p2 : Particle)
    (hd : vlen (vsub p2.position p1.position) ≠ 0) :
    dot (collisionNormal p1 p2) (collisionNormal p1 p2) = 1 := by
  unfold collisionNormal vnormalize
  rw [dot_vdiv_right, dot_comm, dot_vdiv_right, ← vlen_mul_self]
  field_simp

theorem dot_vsub_left (u v w : Vec2) : dot (vsub u v) w = dot u w - dot v w := by
  unfold dot vsub; dsimp only; ring

theorem dot_vdiv_left (v w : Vec2) (c : ℝ) : dot (vdiv v c) w = dot v w / c := by
  unfold dot vdiv; dsimp only; ring

theorem dot_vsmul_left (c : ℝ) (v w : Vec2) : dot (vsmul c v) w = c * dot v w := by
  unfold dot vsmul; dsimp only; ring

theorem dot_vadd_left (u v w : Vec2) : dot (vadd u v) w = dot u w + dot v w := by
  unfold dot vadd; dsimp only; ring

theorem dot_sub_expand (A B : Vec2) :
    dot (vsub A B) (vsub A B) = dot A A - 2 * dot A B + dot B B := by
  unfold dot vsub
  dsimp only
  ring

theorem impulse_swap_core (m J : ℝ) (v1 v2 n : Vec2) (hm : m ≠ 0)
    (hn : dot n n = 1)
    (hJ : J = -(m * dot (vsub v2 v1) n)) :
    dot (vsub v1 (vdiv (vsmul J n) m)) n = dot v2 n ∧
    dot (vadd v2 (vdiv (vsmul J n) m)) n = dot v1 n ∧
    1 / 2 * m * dot (vsub v1 (vdiv (vsmul J n) m)) (vsub v1 (vdiv (vsmul J n) m))
      + 1 / 2 * m * dot (vadd v2 (vdiv (vsmul J n) m)) (vadd v2 (vdiv (vsmul J n) m))
      = 1 / 2 * m * dot v1 v1 + 1 / 2 * m * dot v2 v2 := by
  have hab : dot (vsub v2 v1) n = dot v2 n - dot v1 n := dot_vsub_left v2 v1 n
  have hu1 : dot v1 (vdiv (vsmul J n) m) = J * dot v1 n / m := by
    rw [dot_vdiv_right, dot_vsmul_right]
  have hu2 : dot v2 (vdiv (vsmul J n) m) = J * dot v2 n / m := by
    rw [dot_vdiv_right, dot_vsmul_right]
  have huu : dot (vdiv (vsmul J n) m) (vdiv (vsmul J n) m)
      = J * J / (m * m) * dot n n := by
    unfold dot vdiv vsmul
    dsimp only
    ring
  refine ⟨?_, ?_, ?_⟩
  · rw [dot_vsub_left, dot_vdiv_left, dot_vsmul_left, hn, hJ, hab]
    field_simp
    ring
  · rw [dot_vadd_left, dot_vdiv_left, dot_vsmul_left, hn, hJ, hab]
    field_simp
    ring
  · rw [dot_sub_expand, dot_expand, hu1, hu2, huu, hn, hJ, hab]
    field_simp
    ring

/-- Claim C6: for a collision between two particles of equal positive mass,
with distinct centers and a non-separating relative velocity, resolved with
damping factor 1 (perfectly elastic), the resolution exactly swaps the two
particles' velocity components along the collision normal, and the total
kinetic energy of the pair is conserved. -/
theorem C6_elastic_equal_mass_swap (p1 p2 : Particle) (m : ℝ)
    (hm1 : p1.mass = m) (hm2 : p2.mass = m) (hm : 0 < m)
    (hd : vlen (vsub p2.position p1.position) ≠ 0)
    (happ : velAlong p1 p2 ≤ 0) :
    dot (resolveCollision 1 p1 p2).1.velocity (collisionNormal p1 p2)
        = dot p2.velocity (collisionNormal p1 p2) ∧
    dot (resolveCollision 1 p1 p2).2.velocity (collisionNormal p1 p2)
        = dot p1.velocity (collisionNormal p1 p2) ∧
    1 / 2 * (resolveCollision 1 p1 p2).1.mass
        * dot (resolveCollision 1 p1 p2).1.velocity (resolveCollision 1 p1 p2).1.velocity
      + 1 / 2 * (resolveCollision 1 p1 p2).2.mass
        * dot (resolveCollision 1 p1 p2).2.velocity (resolveCollision 1 p1 p2).2.velocity
      = 1 / 2 * p1.mass * dot p1.velocity p1.velocity
      + 1 / 2 * p2.mass * dot p2.velocity p2.velocity := by
  obtain ⟨h1, h2⟩ := resolve_vel_imp 1 p1 p2 hd (not_lt.mpr happ)
  have hframe := resolveCollision_frame 1 p1 p2
  have hn := normal_dot_one p1 p2 hd
  have hm' : m ≠ 0 := ne_of_gt hm
  have hJ : impulseJ 1 p1 p2
      = -(m * dot (vsub p2.velocity p1.velocity) (collisionNormal p1 p2)) := by
    unfold impulseJ velAlong
    rw [hm1, hm2]
    field_simp
    ring
  obtain ⟨c1, c2, c3⟩ := impulse_swap_core m (impulseJ 1 p1 p2) p1.velocity p2.velocity
      (collisionNormal p1 p2) hm' hn hJ
  refine ⟨?_, ?_, ?_⟩
  · rw [h1, hm1]
    exact c1
  · rw [h2, hm2]
    exact c2
  · rw [hframe.1, hframe.2.1, h1, h2, hm1, hm2]
    exact c3

/-- Claim C3: for every particle and every deltaTime at least 0, the
integration step sets velocity to velocity + acceleration * deltaTime,
then sets position to position + (updated velocity) * deltaTime, using the
post-update velocity, and then resets acceleration to the zero vector. -/
theorem C3_semi_implicit_euler (p : Particle) (dt : ℝ) (hdt : 0 ≤ dt) :
    (p.update dt).velocity = vadd p.velocity (vscale p.acceleration dt) ∧
    (p.update dt).position = vadd p.position (vscale (p.update dt).velocity dt) ∧
    (p.update dt).acceleration = vzero :=
  ⟨rfl, rfl, rfl⟩

/-- Witness for claim C3 at a concrete particle and deltaTime 1. -/
theorem C3_semi_implicit_euler_witness :
    (0 : ℝ) ≤ 1 ∧
    (((particleNew ⟨2, 3⟩ 1).update 1).velocity
        = vadd (particleNew ⟨2, 3⟩ 1).velocity
            (vscale (particleNew ⟨2, 3⟩ 1).acceleration 1) ∧
     ((particleNew ⟨2, 3⟩ 1).update 1).position
        = vadd (particleNew ⟨2, 3⟩ 1).position
            (vscale ((particleNew ⟨2, 3⟩ 1).update 1).velocity 1) ∧
     ((particleNew ⟨2, 3⟩ 1).update 1).acceleration = vzero) :=
  ⟨by norm_num, C3_semi_implicit_euler (particleNew ⟨2, 3⟩ 1) 1 (by norm_num)⟩

/-- Claim C4 against the code: the Particle constructor performs no mass
validation; constructing with mass -1 succeeds and yields a particle whose
mass is -1 and hence not positive, with zero velocity and acceleration and
the default radius 5. The spec demands rejection of non-positive mass at
construction time; the code has no such check. -/
theorem C4_constructor_accepts_nonpositive_mass :
    (particleNew ⟨0, 0⟩ (-1)).mass = -1 ∧
    ¬ (0 < (particleNew ⟨0, 0⟩ (-1)).mass) ∧
    (particleNew ⟨0, 0⟩ (-1)).velocity = vzero ∧
    (particleNew ⟨0, 0⟩ (-1)).acceleration = vzero ∧
    (particleNew ⟨0, 0⟩ (-1)).radius = 5 := by
  refine ⟨rfl, ?_, rfl, rfl, rfl⟩
  show ¬ (0 : ℝ) < -1
  norm_num

/-- Claim C5: the collision test reports a collision exactly when the
Euclidean distance between the centers is strictly less than the sum of
the radii; centers at distance exactly the radius sum (touching but not
overlapping) are not reported as colliding. -/
theorem C5_collision_iff_strict (p q : Particle) :
    (checkCollision p q ↔
      Real.sqrt ((q.position.x - p.position.x) * (q.position.x - p.position.x)
          + (q.position.y - p.position.y) * (q.position.y - p.position.y))
        < p.radius + q.radius) ∧
    (Real.sqrt ((q.position.x - p.position.x) * (q.position.x - p.position.x)
          + (q.position.y - p.position.y) * (q.position.y - p.position.y))
        = p.radius + q.radius → ¬ checkCollision p q) := by
  have hform : calculateDistance p q
      = Real.sqrt ((q.position.x - p.position.x) * (q.position.x - p.position.x)
          + (q.position.y - p.position.y) * (q.position.y - p.position.y)) := rfl
  constructor
  · unfold checkCollision
    rw [hform]
  · intro h hcol
    unfold checkCollision at hcol
    rw [hform, h] at hcol
    exact lt_irrefl _ hcol

/-- Witness for claim C5: two unit-radius particles whose centers are at
distance exactly 2 are not colliding. -/
theorem C5_collision_iff_strict_witness :
    ¬ checkCollision ⟨⟨0, 0⟩, vzero, vzero, 1, 1⟩ ⟨⟨2, 0⟩, vzero, vzero, 1, 1⟩ := by
  apply (C5_collision_iff_strict ⟨⟨0, 0⟩, vzero, vzero, 1, 1⟩ ⟨⟨2, 0⟩, vzero, vzero, 1, 1⟩).2
  show Real.sqrt ((2 - 0) * (2 - 0) + (0 - 0) * (0 - 0)) = 1 + 1
  rw [show ((2 : ℝ) - 0) * (2 - 0) + (0 - 0) * (0 - 0) = 2 * 2 by norm_num]
  rw [Real.sqrt_mul_self (by norm_num : (0 : ℝ) ≤ 2)]
  norm_num

/-- Claim C8: when the two particles selected for collision resolution have
exactly coincident centers, resolution is skipped as a no-op: it does not
fail and both particles are returned with positions and velocities (and all
other fields) unchanged. -/
theorem C8_coincident_centers_noop (damping : ℝ) (p1 p2 : Particle)
    (h : p1.position = p2.position) :
    resolveCollision damping p1 p2 = (p1, p2) := by
  unfold resolveCollision
  dsimp only
  have hz : vlen (vsub p2.position p1.position) = 0 := by
    rw [h]
    have hv : vsub p2.position p2.position = vzero := by
      unfold vsub vzero
      ext
      · dsimp only; ring
      · dsimp only; ring
    rw [hv, vlen_vzero]
  rw [if_pos hz]

/-- Witness for claim C8 at two concrete particles with coincident centers. -/
theorem C8_coincident_centers_noop_witness :
    resolveCollision 1 ⟨⟨1, 2⟩, ⟨3, 4⟩, vzero, 1, 1⟩ ⟨⟨1, 2⟩, ⟨5, 6⟩, vzero, 2, 1⟩
      = (⟨⟨1, 2⟩, ⟨3, 4⟩, vzero, 1, 1⟩, ⟨⟨1, 2⟩, ⟨5, 6⟩, vzero, 2, 1⟩) :=
  C8_coincident_centers_noop 1 _ _ rfl

/-- Claim C7: boundary confinement maps the per-particle rule over the
collection and treats each axis independently: the resulting x position
and x velocity are exactly the per-axis clamp rule applied to the x inputs
(clamp so the edge touches the wall, negate and damp that axis's
velocity), and the y outputs are the same rule applied to the y inputs,
unaffected by the x correction. -/
theorem C7_boundary_axis_rule (cfg : EngineConfig) (mn mx : Vec2) (ps : List Particle)
    (p : Particle) :
    applyBoundaryConstraints cfg mn mx ps
        = ps.map (boundaryOne cfg.collisionDamping mn mx) ∧
    ((boundaryOne cfg.collisionDamping mn mx p).position.x,
     (boundaryOne cfg.collisionDamping mn mx p).velocity.x)
        = specAxisConfinement cfg.collisionDamping mn.x mx.x p.radius
            (p.position.x, p.velocity.x) ∧
    ((boundaryOne cfg.collisionDamping mn mx p).position.y,
     (boundaryOne cfg.collisionDamping mn mx p).velocity.y)
        = specAxisConfinement cfg.collisionDamping mn.y mx.y p.radius
            (p.position.y, p.velocity.y) := by
  refine ⟨rfl, ?_, ?_⟩
  · unfold boundaryOne specAxisConfinement
    dsimp only
    split_ifs <;> simp_all
  · unfold boundaryOne specAxisConfinement
    dsimp only
    split_ifs <;> simp_all

theorem boundaryOne_inside (damping : ℝ) (mn mx : Vec2) (p : Particle)
    (h1 : ¬ p.position.x - p.radius < mn.x) (h2 : ¬ p.position.x + p.radius > mx.x)
    (h3 : ¬ p.position.y - p.radius < mn.y) (h4 : ¬ p.position.y + p.radius > mx.y) :
    boundaryOne damping mn mx p = p := by
  unfold boundaryOne
  dsimp only
  rw [if_neg h1, if_neg h2, if_neg h3, if_neg h4]

theorem update_still (p : Particle) (dt : ℝ)
    (hv : p.velocity = vzero) (ha : p.acceleration = vzero) :
    p.update dt = p := by
  have hveq : vadd p.velocity (vscale p.acceleration dt) = p.velocity := by
    rw [hv, ha]
    unfold vadd vscale vzero
    ext
    · dsimp only; ring
    · dsimp only; ring
  unfold Particle.update
  dsimp only
  rw [hveq]
  have hpeq : vadd p.position (vscale p.velocity dt) = p.position := by
    rw [hv]
    unfold vadd vscale vzero
    ext
    · dsimp only; ring
    · dsimp only; ring
  rw [hpeq, ← ha]

theorem appUpdate_still (cfg : EngineConfig) (mn mx : Vec2) (p : Particle) (dt : ℝ)
    (hg : cfg.gravity = vzero) (har : cfg.airResistance = 0)
    (hv : p.velocity = vzero) (ha : p.acceleration = vzero)
    (h1 : ¬ p.position.x - p.radius < mn.x) (h2 : ¬ p.position.x + p.radius > mx.x)
    (h3 : ¬ p.position.y - p.radius < mn.y) (h4 : ¬ p.position.y + p.radius > mx.y) :
    appUpdate cfg mn mx [p] dt = [p] := by
  unfold appUpdate applyBoundaryConstraints
  rw [List.map_cons, List.map_nil, boundaryOne_inside _ _ _ _ h1 h2 h3 h4]
  unfold integrateParticles
  rw [hg, har, applyGravity_zero, applyAirResistance_zero, handleCollisions_singleton]
  unfold systemUpdate
  rw [List.map_cons, List.map_nil, update_still p dt hv ha]

/-- Claim C9: a single particle with zero velocity and zero accumulated
acceleration, with gravity zero and air resistance 0, strictly inside the
world bounds, is left exactly unchanged by every application step
(boundary constraints followed by the engine step), for any number of
steps. -/
theorem C9_isolated_drift (cfg : EngineConfig) (mn mx : Vec2) (p : Particle)
    (dt : ℝ) (n : ℕ)
    (hg : cfg.gravity = vzero) (har : cfg.airResistance = 0)
    (hv : p.velocity = vzero) (ha : p.acceleration = vzero)
    (h1 : mn.x < p.position.x - p.radius) (h2 : p.position.x + p.radius < mx.x)
    (h3 : mn.y < p.position.y - p.radius) (h4 : p.position.y + p.radius < mx.y) :
    (fun l => appUpdate cfg mn mx l dt)^[n] [p] = [p] := by
  induction n with
  | zero => rfl
  | succ k ih =>
    rw [Function.iterate_succ_apply]
    rw [appUpdate_still cfg mn mx p dt hg har hv ha
      (not_lt.mpr (le_of_lt h1)) (not_lt.mpr (le_of_lt h2))
      (not_lt.mpr (le_of_lt h3)) (not_lt.mpr (le_of_lt h4))]
    exact ih

/-- Claim C1, amended: the engine's single-step entry point receives only
the collection and the deltaTime, and performs exactly three phases in
this order: global force application (gravity, then air resistance) to
every particle, pairwise collision resolution, and integration commit via
the collection's bulk advance. Boundary confinement is not part of the
step: it is a separate engine operation that the application invokes
before the step entry point, so it precedes force application. -/
theorem C1_amended_step_phases (cfg : EngineConfig) (mn mx : Vec2)
    (ps : List Particle) (dt : ℝ) :
    integrateParticles cfg ps dt
      = systemUpdate
          (handleCollisions cfg.collisionDamping
            (applyAirResistance cfg.airResistance (applyGravity cfg.gravity ps))) dt ∧
    appUpdate cfg mn mx ps dt
      = integrateParticles cfg (applyBoundaryConstraints cfg mn mx ps) dt :=
  ⟨rfl, rfl⟩

/-- Counterexample to claim C1 as stated: with gravity zero and air
resistance zero, a stationary particle whose disk rests beyond worldMax
is left at x = 200 by the engine's step entry point (no boundary phase
runs inside it), while the spec's four-phase step with bounds -100..100
clamps it to x = 95; the two disagree at this input. -/
theorem C1_counterexample_no_boundary_phase :
    ((integrateParticles ⟨vzero, 0, 1⟩ [⟨⟨200, 0⟩, ⟨0, 0⟩, ⟨0, 0⟩, 1, 5⟩] 0).getD 0
        default).position.x = 200 ∧
    ((specStep ⟨vzero, 0, 1⟩ ⟨-100, -100⟩ ⟨100, 100⟩
        [⟨⟨200, 0⟩, ⟨0, 0⟩, ⟨0, 0⟩, 1, 5⟩] 0).getD 0 default).position.x = 95 ∧
    integrateParticles ⟨vzero, 0, 1⟩ [⟨⟨200, 0⟩, ⟨0, 0⟩, ⟨0, 0⟩, 1, 5⟩] 0
      ≠ specStep ⟨vzero, 0, 1⟩ ⟨-100, -100⟩ ⟨100, 100⟩
          [⟨⟨200, 0⟩, ⟨0, 0⟩, ⟨0, 0⟩, 1, 5⟩] 0 := by
  have hInt : integrateParticles ⟨vzero, 0, 1⟩ [⟨⟨200, 0⟩, ⟨0, 0⟩, ⟨0, 0⟩, 1, 5⟩] 0
      = [⟨⟨200, 0⟩, ⟨0, 0⟩, ⟨0, 0⟩, 1, 5⟩] := by
    unfold integrateParticles
    dsimp only
    rw [applyGravity_zero, applyAirResistance_zero, handleCollisions_singleton]
    unfold systemUpdate
    rw [List.map_cons, List.map_nil, update_still _ _ rfl rfl]
  have hb : boundaryOne 1 ⟨-100, -100⟩ ⟨100, 100⟩
      (⟨⟨200, 0⟩, ⟨0, 0⟩, ⟨0, 0⟩, 1, 5⟩ : Particle)
      = ⟨⟨95, 0⟩, ⟨0, 0⟩, ⟨0, 0⟩, 1, 5⟩ := by
    norm_num [boundaryOne]
  have hSpec : specStep ⟨vzero, 0, 1⟩ ⟨-100, -100⟩ ⟨100, 100⟩
      [⟨⟨200, 0⟩, ⟨0, 0⟩, ⟨0, 0⟩, 1, 5⟩] 0 = [⟨⟨95, 0⟩, ⟨0, 0⟩, ⟨0, 0⟩, 1, 5⟩] := by
    unfold specStep applyBoundaryConstraints
    dsimp only
    rw [applyGravity_zero, applyAirResistance_zero]
    rw [List.map_cons, List.map_nil, hb, handleCollisions_singleton]
    unfold systemUpdate
    rw [List.map_cons, List.map_nil, update_still _ _ rfl rfl]
  refine ⟨?_, ?_, ?_⟩
  · rw [hInt]
    rfl
  · rw [hSpec]
    rfl
  · rw [hInt, hSpec]
    intro hcon
    have h3 := congrArg (fun l : List Particle => (l.getD 0 default).position.x) hcon
    simp only [List.getD_cons_zero] at h3
    norm_num at h3

/-- Counterexample to claim C2 as stated: two colliding unit-radius
particles moving apart at speed 5 with air resistance 1/4 and deltaTime 1.
The positional correction separates them, the impulse is skipped (they are
separating), but the drag accelerations accumulated from the pre-collision
velocities reverse both velocities during integration, and after the step
the centers are at distance 1/2 while the radius sum is 2: the particles
interpenetrate by 1.5, far beyond any small numerical tolerance. -/
theorem C2_counterexample_drag_reoverlap :
    checkCollision ⟨⟨0, 0⟩, ⟨-5, 0⟩, ⟨0, 0⟩, 1, 1⟩ ⟨⟨1, 0⟩, ⟨5, 0⟩, ⟨0, 0⟩, 1, 1⟩ ∧
    calculateDistance
        ((integrateParticles ⟨vzero, 1 / 4, 1⟩
            [⟨⟨0, 0⟩, ⟨-5, 0⟩, ⟨0, 0⟩, 1, 1⟩, ⟨⟨1, 0⟩, ⟨5, 0⟩, ⟨0, 0⟩, 1, 1⟩] 1).getD 0 default)
        ((integrateParticles ⟨vzero, 1 / 4, 1⟩
            [⟨⟨0, 0⟩, ⟨-5, 0⟩, ⟨0, 0⟩, 1, 1⟩, ⟨⟨1, 0⟩, ⟨5, 0⟩, ⟨0, 0⟩, 1, 1⟩] 1).getD 1 default)
      = 1 / 2 ∧
    (1 : ℝ) / 2
      < ((integrateParticles ⟨vzero, 1 / 4, 1⟩
            [⟨⟨0, 0⟩, ⟨-5, 0⟩, ⟨0, 0⟩, 1, 1⟩, ⟨⟨1, 0⟩, ⟨5, 0⟩, ⟨0, 0⟩, 1, 1⟩] 1).getD 0
              default).radius
          + ((integrateParticles ⟨vzero, 1 / 4, 1⟩
            [⟨⟨0, 0⟩, ⟨-5, 0⟩, ⟨0, 0⟩, 1, 1⟩, ⟨⟨1, 0⟩, ⟨5, 0⟩, ⟨0, 0⟩, 1, 1⟩] 1).getD 1
              default).radius - 1 := by
  have hlen5 : vlen ⟨-5, 0⟩ = 5 := vlen_eval _ 5 (by norm_num) (by unfold dot; norm_num)
  have hlen5' : vlen ⟨5, 0⟩ = 5 := vlen_eval _ 5 (by norm_num) (by unfold dot; norm_num)
  have hsub : vsub (⟨1, 0⟩ : Vec2) ⟨0, 0⟩ = ⟨1, 0⟩ := by unfold vsub; norm_num
  have hlen1 : vlen (⟨1, 0⟩ : Vec2) = 1 := vlen_eval _ 1 (by norm_num) (by unfold dot; norm_num)
  have hA : airOne (1 / 4) ⟨⟨0, 0⟩, ⟨-5, 0⟩, ⟨0, 0⟩, 1, 1⟩
      = ⟨⟨0, 0⟩, ⟨-5, 0⟩, ⟨25 / 4, 0⟩, 1, 1⟩ := by
    unfold airOne vnormalize
    dsimp only
    rw [hlen5, if_pos (by norm_num : (5 : ℝ) > 0)]
    unfold Particle.applyForce vscale vneg vdiv vadd
    norm_num
  have hB : airOne (1 / 4) ⟨⟨1, 0⟩, ⟨5, 0⟩, ⟨0, 0⟩, 1, 1⟩
      = ⟨⟨1, 0⟩, ⟨5, 0⟩, ⟨-(25 / 4), 0⟩, 1, 1⟩ := by
    unfold airOne vnormalize
    dsimp only
    rw [hlen5', if_pos (by norm_num : (5 : ℝ) > 0)]
    unfold Particle.applyForce vscale vneg vdiv vadd
    norm_num
  have hcol0 : checkCollision (⟨⟨0, 0⟩, ⟨-5, 0⟩, ⟨0, 0⟩, 1, 1⟩ : Particle)
      ⟨⟨1, 0⟩, ⟨5, 0⟩, ⟨0, 0⟩, 1, 1⟩ := by
    unfold checkCollision calculateDistance
    dsimp only
    rw [hsub, hlen1]
    norm_num
  have hcolAB : checkCollision (⟨⟨0, 0⟩, ⟨-5, 0⟩, ⟨25 / 4, 0⟩, 1, 1⟩ : Particle)
      ⟨⟨1, 0⟩, ⟨5, 0⟩, ⟨-(25 / 4), 0⟩, 1, 1⟩ := by
    unfold checkCollision calculateDistance
    dsimp only
    rw [hsub, hlen1]
    norm_num
  have hres : resolveCollision 1 ⟨⟨0, 0⟩, ⟨-5, 0⟩, ⟨25 / 4, 0⟩, 1, 1⟩
      ⟨⟨1, 0⟩, ⟨5, 0⟩, ⟨-(25 / 4), 0⟩, 1, 1⟩
      = (⟨⟨-(1 / 2), 0⟩, ⟨-5, 0⟩, ⟨25 / 4, 0⟩, 1, 1⟩,
         ⟨⟨3 / 2, 0⟩, ⟨5, 0⟩, ⟨-(25 / 4), 0⟩, 1, 1⟩) := by
    unfold resolveCollision vnormalize
    dsimp only
    rw [hsub, hlen1]
    rw [if_neg (by norm_num : ¬ (1 : ℝ) = 0)]
    rw [if_pos (show dot (vsub (⟨5, 0⟩ : Vec2) ⟨-5, 0⟩) (vdiv ⟨1, 0⟩ 1) > 0 by
      unfold dot vsub vdiv; norm_num)]
    unfold vsub vadd vscale vdiv
    norm_num
  have hup1 : Particle.update ⟨⟨-(1 / 2), 0⟩, ⟨-5, 0⟩, ⟨25 / 4, 0⟩, 1, 1⟩ 1
      = ⟨⟨3 / 4, 0⟩, ⟨5 / 4, 0⟩, ⟨0, 0⟩, 1, 1⟩ := by
    unfold Particle.update vadd vscale
    norm_num [vzero]
  have hup2 : Particle.update ⟨⟨3 / 2, 0⟩, ⟨5, 0⟩, ⟨-(25 / 4), 0⟩, 1, 1⟩ 1
      = ⟨⟨1 / 4, 0⟩, ⟨-(5 / 4), 0⟩, ⟨0, 0⟩, 1, 1⟩ := by
    unfold Particle.update vadd vscale
    norm_num [vzero]
  have hstep : integrateParticles ⟨vzero, 1 / 4, 1⟩
      [⟨⟨0, 0⟩, ⟨-5, 0⟩, ⟨0, 0⟩, 1, 1⟩, ⟨⟨1, 0⟩, ⟨5, 0⟩, ⟨0, 0⟩, 1, 1⟩] 1
      = [⟨⟨3 / 4, 0⟩, ⟨5 / 4, 0⟩, ⟨0, 0⟩, 1, 1⟩,
         ⟨⟨1 / 4, 0⟩, ⟨-(5 / 4), 0⟩, ⟨0, 0⟩, 1, 1⟩] := by
    unfold integrateParticles
    dsimp only
    rw [applyGravity_zero]
    unfold applyAirResistance
    rw [List.map_cons, List.map_cons, List.map_nil, hA, hB]
    rw [handleCollisions_pair, if_pos hcolAB, hres]
    dsimp only
    unfold systemUpdate
    rw [List.map_cons, List.map_cons, List.map_nil, hup1, hup2]
  have hsubf : vsub (⟨1 / 4, 0⟩ : Vec2) ⟨3 / 4, 0⟩ = ⟨-(1 / 2), 0⟩ := by
    unfold vsub; norm_num
  have hlenf : vlen ⟨-(1 / 2), 0⟩ = 1 / 2 :=
    vlen_eval _ (1 / 2) (by norm_num) (by unfold dot; norm_num)
  refine ⟨hcol0, ?_, ?_⟩
  · rw [hstep]
    show calculateDistance (⟨⟨3 / 4, 0⟩, ⟨5 / 4, 0⟩, ⟨0, 0⟩, 1, 1⟩ : Particle)
        ⟨⟨1 / 4, 0⟩, ⟨-(5 / 4), 0⟩, ⟨0, 0⟩, 1, 1⟩ = 1 / 2
    unfold calculateDistance
    dsimp only
    rw [hsubf, hlenf]
  · rw [hstep]
    show (1 : ℝ) / 2 < 1 + 1 - 1
    norm_num

theorem airOne_frame (k : ℝ) (p : Particle) :
    (airOne k p).mass = p.mass ∧ (airOne k p).radius = p.radius := by
  unfold airOne
  dsimp only
  split_ifs <;> exact ⟨rfl, rfl⟩

theorem massRadii_eq_length (l1 l2 : List Particle)
    (h : massRadii l1 = massRadii l2) : l1.length = l2.length := by
  rw [← massRadii_length l1, ← massRadii_length l2, h]

/-- Claim C10: every kernel operation — force application (single-particle
and global), integration, gravity and air-resistance application, boundary
confinement and pairwise collision handling — leaves every particle's mass
and radius unchanged and neither adds nor removes particles: only
position, velocity and acceleration are mutated. -/
theorem C10_frame_conditions (cfg : EngineConfig) (mn mx : Vec2) (ps : List Particle)
    (p : Particle) (f g : Vec2) (dt e k : ℝ) :
    (p.applyForce f).mass = p.mass ∧ (p.applyForce f).radius = p.radius ∧
    (applyForceToParticle p f).mass = p.mass ∧
    (applyForceToParticle p f).radius = p.radius ∧
    (p.update dt).mass = p.mass ∧ (p.update dt).radius = p.radius ∧
    massRadii (applyGravity g ps) = massRadii ps ∧
    massRadii (applyAirResistance k ps) = massRadii ps ∧
    massRadii (applyGlobalForce f ps) = massRadii ps ∧
    massRadii (applyBoundaryConstraints cfg mn mx ps) = massRadii ps ∧
    massRadii (handleCollisions e ps) = massRadii ps ∧
    massRadii (systemUpdate ps dt) = massRadii ps ∧
    massRadii (integrateParticles cfg ps dt) = massRadii ps ∧
    (applyGravity g ps).length = ps.length ∧
    (applyAirResistance k ps).length = ps.length ∧
    (applyGlobalForce f ps).length = ps.length ∧
    (applyBoundaryConstraints cfg mn mx ps).length = ps.length ∧
    (handleCollisions e ps).length = ps.length ∧
    (systemUpdate ps dt).length = ps.length ∧
    (integrateParticles cfg ps dt).length = ps.length := by
  have hgrav : ∀ (g' : Vec2) (l : List Particle),
      massRadii (applyGravity g' l) = massRadii l :=
    fun g' l =>
      massRadii_map (fun q => q.applyForce (vscale g' q.mass)) (fun _ => ⟨rfl, rfl⟩) l
  have hair : ∀ (k' : ℝ) (l : List Particle),
      massRadii (applyAirResistance k' l) = massRadii l :=
    fun k' l => massRadii_map (airOne k') (fun q => airOne_frame k' q) l
  have hglob : massRadii (applyGlobalForce f ps) = massRadii ps :=
    massRadii_map (fun q => q.applyForce f) (fun _ => ⟨rfl, rfl⟩) ps
  have hbound : massRadii (applyBoundaryConstraints cfg mn mx ps) = massRadii ps :=
    massRadii_map (boundaryOne cfg.collisionDamping mn mx)
      (fun q => ⟨(boundaryOne_frame cfg.collisionDamping mn mx q).1,
        (boundaryOne_frame cfg.collisionDamping mn mx q).2.1⟩) ps
  have hsys : ∀ l : List Particle, massRadii (systemUpdate l dt) = massRadii l :=
    fun l => massRadii_map (fun q => q.update dt) (fun _ => ⟨rfl, rfl⟩) l
  have hint : massRadii (integrateParticles cfg ps dt) = massRadii ps := by
    unfold integrateParticles
    rw [hsys, handleCollisions_massRadii, hair, hgrav]
  exact ⟨rfl, rfl, rfl, rfl, rfl, rfl, hgrav g ps, hair k ps, hglob, hbound,
    handleCollisions_massRadii e ps, hsys ps, hint,
    massRadii_eq_length _ _ (hgrav g ps), massRadii_eq_length _ _ (hair k ps),
    massRadii_eq_length _ _ hglob, massRadii_eq_length _ _ hbound,
    massRadii_eq_length _ _ (handleCollisions_massRadii e ps),
    massRadii_eq_length _ _ (hsys ps), massRadii_eq_length _ _ hint⟩

/-- Witness for claim C2 (amended) at a concrete head-on pair with
air resistance 0 and deltaTime 0. -/
theorem C2_amended_two_particle_separation_witness :
    (checkCollision (⟨⟨0, 0⟩, ⟨1, 0⟩, ⟨0, 0⟩, 1, 1⟩ : Particle)
        ⟨⟨1, 0⟩, ⟨-1, 0⟩, ⟨0, 0⟩, 1, 1⟩ ∧
     (⟨⟨0, 0⟩, ⟨1, 0⟩, ⟨0, 0⟩, 1, 1⟩ : Particle).position
        ≠ (⟨⟨1, 0⟩, ⟨-1, 0⟩, ⟨0, 0⟩, 1, 1⟩ : Particle).position ∧
     (0 : ℝ) ≤ 1 ∧ (0 : ℝ) ≤ 0 ∧ (0 : ℝ) < 1) ∧
    (⟨⟨0, 0⟩, ⟨1, 0⟩, ⟨0, 0⟩, 1, 1⟩ : Particle).radius
        + (⟨⟨1, 0⟩, ⟨-1, 0⟩, ⟨0, 0⟩, 1, 1⟩ : Particle).radius
      ≤ calculateDistance
          ((integrateParticles ⟨vzero, 0, 1⟩
              [⟨⟨0, 0⟩, ⟨1, 0⟩, ⟨0, 0⟩, 1, 1⟩, ⟨⟨1, 0⟩, ⟨-1, 0⟩, ⟨0, 0⟩, 1, 1⟩] 0).getD 0
                default)
          ((integrateParticles ⟨vzero, 0, 1⟩
              [⟨⟨0, 0⟩, ⟨1, 0⟩, ⟨0, 0⟩, 1, 1⟩, ⟨⟨1, 0⟩, ⟨-1, 0⟩, ⟨0, 0⟩, 1, 1⟩] 0).getD 1
                default) := by
  have hsub : vsub (⟨1, 0⟩ : Vec2) ⟨0, 0⟩ = ⟨1, 0⟩ := by unfold vsub; norm_num
  have hlen1 : vlen (⟨1, 0⟩ : Vec2) = 1 :=
    vlen_eval _ 1 (by norm_num) (by unfold dot; norm_num)
  have hcol : checkCollision (⟨⟨0, 0⟩, ⟨1, 0⟩, ⟨0, 0⟩, 1, 1⟩ : Particle)
      ⟨⟨1, 0⟩, ⟨-1, 0⟩, ⟨0, 0⟩, 1, 1⟩ := by
    unfold checkCollision calculateDistance
    dsimp only
    rw [hsub, hlen1]
    norm_num
  have hpos : (⟨⟨0, 0⟩, ⟨1, 0⟩, ⟨0, 0⟩, 1, 1⟩ : Particle).position
      ≠ (⟨⟨1, 0⟩, ⟨-1, 0⟩, ⟨0, 0⟩, 1, 1⟩ : Particle).position := by
    intro hq
    have hx := congrArg Vec2.x hq
    norm_num at hx
  exact ⟨⟨hcol, hpos, by norm_num, le_refl 0, by norm_num⟩,
    C2_amended_two_particle_separation ⟨vzero, 0, 1⟩ _ _ 0 rfl (by norm_num)
      (le_refl 0) (by norm_num) (by norm_num) rfl hcol hpos⟩

/-- Witness for claim C6 at a concrete head-on equal-mass pair. -/
theorem C6_elastic_equal_mass_swap_witness :
    (vlen (vsub (⟨⟨1, 0⟩, ⟨-1, 0⟩, ⟨0, 0⟩, 1, 1⟩ : Particle).position
        (⟨⟨0, 0⟩, ⟨1, 0⟩, ⟨0, 0⟩, 1, 1⟩ : Particle).position) ≠ 0 ∧
     velAlong ⟨⟨0, 0⟩, ⟨1, 0⟩, ⟨0, 0⟩, 1, 1⟩ ⟨⟨1, 0⟩, ⟨-1, 0⟩, ⟨0, 0⟩, 1, 1⟩ ≤ 0) ∧
    (dot (resolveCollision 1 ⟨⟨0, 0⟩, ⟨1, 0⟩, ⟨0, 0⟩, 1, 1⟩
            ⟨⟨1, 0⟩, ⟨-1, 0⟩, ⟨0, 0⟩, 1, 1⟩).1.velocity
        (collisionNormal ⟨⟨0, 0⟩, ⟨1, 0⟩, ⟨0, 0⟩, 1, 1⟩ ⟨⟨1, 0⟩, ⟨-1, 0⟩, ⟨0, 0⟩, 1, 1⟩)
        = dot (⟨⟨1, 0⟩, ⟨-1, 0⟩, ⟨0, 0⟩, 1, 1⟩ : Particle).velocity
            (collisionNormal ⟨⟨0, 0⟩, ⟨1, 0⟩, ⟨0, 0⟩, 1, 1⟩
              ⟨⟨1, 0⟩, ⟨-1, 0⟩, ⟨0, 0⟩, 1, 1⟩) ∧
     dot (resolveCollision 1 ⟨⟨0, 0⟩, ⟨1, 0⟩, ⟨0, 0⟩, 1, 1⟩
            ⟨⟨1, 0⟩, ⟨-1, 0⟩, ⟨0, 0⟩, 1, 1⟩).2.velocity
        (collisionNormal ⟨⟨0, 0⟩, ⟨1, 0⟩, ⟨0, 0⟩, 1, 1⟩ ⟨⟨1, 0⟩, ⟨-1, 0⟩, ⟨0, 0⟩, 1, 1⟩)
        = dot (⟨⟨0, 0⟩, ⟨1, 0⟩, ⟨0, 0⟩, 1, 1⟩ : Particle).velocity
            (collisionNormal ⟨⟨0, 0⟩, ⟨1, 0⟩, ⟨0, 0⟩, 1, 1⟩
              ⟨⟨1, 0⟩, ⟨-1, 0⟩, ⟨0, 0⟩, 1, 1⟩) ∧
     1 / 2 * (resolveCollision 1 ⟨⟨0, 0⟩, ⟨1, 0⟩, ⟨0, 0⟩, 1, 1⟩
            ⟨⟨1, 0⟩, ⟨-1, 0⟩, ⟨0, 0⟩, 1, 1⟩).1.mass
          * dot (resolveCollision 1 ⟨⟨0, 0⟩, ⟨1, 0⟩, ⟨0, 0⟩, 1, 1⟩
                ⟨⟨1, 0⟩, ⟨-1, 0⟩, ⟨0, 0⟩, 1, 1⟩).1.velocity
              (resolveCollision 1 ⟨⟨0, 0⟩, ⟨1, 0⟩, ⟨0, 0⟩, 1, 1⟩
                ⟨⟨1, 0⟩, ⟨-1, 0⟩, ⟨0, 0⟩, 1, 1⟩).1.velocity
        + 1 / 2 * (resolveCollision 1 ⟨⟨0, 0⟩, ⟨1, 0⟩, ⟨0, 0⟩, 1, 1⟩
            ⟨⟨1, 0⟩, ⟨-1, 0⟩, ⟨0, 0⟩, 1, 1⟩).2.mass
          * dot (resolveCollision 1 ⟨⟨0, 0⟩, ⟨1, 0⟩, ⟨0, 0⟩, 1, 1⟩
                ⟨⟨1, 0⟩, ⟨-1, 0⟩, ⟨0, 0⟩, 1, 1⟩).2.velocity
              (resolveCollision 1 ⟨⟨0, 0⟩, ⟨1, 0⟩, ⟨0, 0⟩, 1, 1⟩
                ⟨⟨1, 0⟩, ⟨-1, 0⟩, ⟨0, 0⟩, 1, 1⟩).2.velocity
        = 1 / 2 * (⟨⟨0, 0⟩, ⟨1, 0⟩, ⟨0, 0⟩, 1, 1⟩ : Particle).mass
            * dot (⟨⟨0, 0⟩, ⟨1, 0⟩, ⟨0, 0⟩, 1, 1⟩ : Particle).velocity
                (⟨⟨0, 0⟩, ⟨1, 0⟩, ⟨0, 0⟩, 1, 1⟩ : Particle).velocity
          + 1 / 2 * (⟨⟨1, 0⟩, ⟨-1, 0⟩, ⟨0, 0⟩, 1, 1⟩ : Particle).mass
            * dot (⟨⟨1, 0⟩, ⟨-1, 0⟩, ⟨0, 0⟩, 1, 1⟩ : Particle).velocity
                (⟨⟨1, 0⟩, ⟨-1, 0⟩, ⟨0, 0⟩, 1, 1⟩ : Particle).velocity) := by
  have hsub : vsub (⟨1, 0⟩ : Vec2) ⟨0, 0⟩ = ⟨1, 0⟩ := by unfold vsub; norm_num
  have hlen1 : vlen (⟨1, 0⟩ : Vec2) = 1 :=
    vlen_eval _ 1 (by norm_num) (by unfold dot; norm_num)
  have hd : vlen (vsub (⟨⟨1, 0⟩, ⟨-1, 0⟩, ⟨0, 0⟩, 1, 1⟩ : Particle).position
      (⟨⟨0, 0⟩, ⟨1, 0⟩, ⟨0, 0⟩, 1, 1⟩ : Particle).position) ≠ 0 := by
    dsimp only
    rw [hsub, hlen1]
    norm_num
  have happ : velAlong ⟨⟨0, 0⟩, ⟨1, 0⟩, ⟨0, 0⟩, 1, 1⟩
      ⟨⟨1, 0⟩, ⟨-1, 0⟩, ⟨0, 0⟩, 1, 1⟩ ≤ 0 := by
    unfold velAlong collisionNormal vnormalize
    dsimp only
    rw [hsub, hlen1]
    unfold dot vsub vdiv
    norm_num
  exact ⟨⟨hd, happ⟩,
    C6_elastic_equal_mass_swap ⟨⟨0, 0⟩, ⟨1, 0⟩, ⟨0, 0⟩, 1, 1⟩
      ⟨⟨1, 0⟩, ⟨-1, 0⟩, ⟨0, 0⟩, 1, 1⟩ 1 rfl rfl (by norm_num) hd happ⟩

/-- Witness for claim C9: a stationary default particle at the origin
inside the bounds -100..100 stays put for 2 steps of deltaTime 1. -/
theorem C9_isolated_drift_witness :
    ((-100 : ℝ) < 0 - 5 ∧ (0 : ℝ) + 5 < 100) ∧
    (fun l => appUpdate ⟨vzero, 0, 1⟩ ⟨-100, -100⟩ ⟨100, 100⟩ l 1)^[2]
        [particleNew ⟨0, 0⟩ 1] = [particleNew ⟨0, 0⟩ 1] :=
  ⟨⟨by norm_num, by norm_num⟩,
   C9_isolated_drift ⟨vzero, 0, 1⟩ ⟨-100, -100⟩ ⟨100, 100⟩ (particleNew ⟨0, 0⟩ 1) 1 2
     rfl rfl rfl rfl (by norm_num [particleNew]) (by norm_num [particleNew])
     (by norm_num [particleNew]) (by norm_num [particleNew])⟩

end
